import Mathlib

/-!
Verification development for the otezip ZIP library
(container engine in `src/lib/otezip.c`, DEFLATE codec in
`src/lib/deflate.inc.c` / `deflate-enc.inc.c` / `deflate-dec.inc.c`).

The C sources are shallowly embedded: machine integers become `Nat` with
explicit `% 2^w` where the C type's wrap-around matters, byte buffers
become `List Nat` whose reads are taken `% 256` (mirroring `uint8_t`
accesses), fallible code returns `Option` or a result sum, and the
stateful streaming codecs become explicit state records threaded through
recursive functions (bounded loops get an explicit fuel argument chosen
larger than the loop's C-side iteration bound).
-/

namespace Otezip

/-- Read one byte of a byte buffer: out-of-range reads yield 0 and every
stored value is truncated to `uint8_t` range, mirroring byte-typed C
accesses. In-bounds accesses of well-formed buffers are unaffected. -/
def byteAt (f : List Nat) (i : Nat) : Nat := f.getD i 0 % 256

/-- `otezip_rd16` (otezip.c): little-endian 16-bit read. The C combines
the disjoint shifted byte fields with `|`; on bytes (each < 256) that is
exactly this sum. -/
def otezip_rd16 (f : List Nat) (i : Nat) : Nat :=
  byteAt f i + byteAt f (i + 1) * 256

/-- `otezip_rd32` (otezip.c): little-endian 32-bit read, `|` of disjoint
byte fields written additively as in `otezip_rd16`. -/
def otezip_rd32 (f : List Nat) (i : Nat) : Nat :=
  byteAt f i + byteAt f (i + 1) * 256 + byteAt f (i + 2) * 65536 +
    byteAt f (i + 3) * 16777216

/-- `otezip_wr16`: little-endian 16-bit write, as the two bytes produced. -/
def otezip_wr16 (v : Nat) : List Nat := [v % 256, v / 256 % 256]

/-- `otezip_wr32`: little-endian 32-bit write, as the four bytes produced. -/
def otezip_wr32 (v : Nat) : List Nat :=
  [v % 256, v / 256 % 256, v / 65536 % 256, v / 16777216 % 256]

/-- Unsigned 32-bit subtraction `a - b` with wrap-around, for C expressions
such as `(state->window_pos - distance)` on `uint32_t` operands. Assumes
`a, b < 2^32` at call sites (all call sites keep them far smaller). -/
def usub32 (a b : Nat) : Nat := (a + 4294967296 - b % 4294967296) % 4294967296

/-- The CRC-32 lookup table (reversed polynomial 0xEDB88320), transcribed
from the `crc32_table` constant in `mzip.c`. -/
def crc32_table : List Nat := [
  0x00000000, 0x77073096, 0xee0e612c, 0x990951ba, 0x076dc419, 0x706af48f, 0xe963a535, 0x9e6495a3,
  0x0edb8832, 0x79dcb8a4, 0xe0d5e91e, 0x97d2d988, 0x09b64c2b, 0x7eb17cbd, 0xe7b82d07, 0x90bf1d91,
  0x1db71064, 0x6ab020f2, 0xf3b97148, 0x84be41de, 0x1adad47d, 0x6ddde4eb, 0xf4d4b551, 0x83d385c7,
  0x136c9856, 0x646ba8c0, 0xfd62f97a, 0x8a65c9ec, 0x14015c4f, 0x63066cd9, 0xfa0f3d63, 0x8d080df5,
  0x3b6e20c8, 0x4c69105e, 0xd56041e4, 0xa2677172, 0x3c03e4d1, 0x4b04d447, 0xd20d85fd, 0xa50ab56b,
  0x35b5a8fa, 0x42b2986c, 0xdbbbc9d6, 0xacbcf940, 0x32d86ce3, 0x45df5c75, 0xdcd60dcf, 0xabd13d59,
  0x26d930ac, 0x51de003a, 0xc8d75180, 0xbfd06116, 0x21b4f4b5, 0x56b3c423, 0xcfba9599, 0xb8bda50f,
  0x2802b89e, 0x5f058808, 0xc60cd9b2, 0xb10be924, 0x2f6f7c87, 0x58684c11, 0xc1611dab, 0xb6662d3d,
  0x76dc4190, 0x01db7106, 0x98d220bc, 0xefd5102a, 0x71b18589, 0x06b6b51f, 0x9fbfe4a5, 0xe8b8d433,
  0x7807c9a2, 0x0f00f934, 0x9609a88e, 0xe10e9818, 0x7f6a0dbb, 0x086d3d2d, 0x91646c97, 0xe6635c01,
  0x6b6b51f4, 0x1c6c6162, 0x856530d8, 0xf262004e, 0x6c0695ed, 0x1b01a57b, 0x8208f4c1, 0xf50fc457,
  0x65b0d9c6, 0x12b7e950, 0x8bbeb8ea, 0xfcb9887c, 0x62dd1ddf, 0x15da2d49, 0x8cd37cf3, 0xfbd44c65,
  0x4db26158, 0x3ab551ce, 0xa3bc0074, 0xd4bb30e2, 0x4adfa541, 0x3dd895d7, 0xa4d1c46d, 0xd3d6f4fb,
  0x4369e96a, 0x346ed9fc, 0xad678846, 0xda60b8d0, 0x44042d73, 0x33031de5, 0xaa0a4c5f, 0xdd0d7cc9,
  0x5005713c, 0x270241aa, 0xbe0b1010, 0xc90c2086, 0x5768b525, 0x206f85b3, 0xb966d409, 0xce61e49f,
  0x5edef90e, 0x29d9c998, 0xb0d09822, 0xc7d7a8b4, 0x59b33d17, 0x2eb40d81, 0xb7bd5c3b, 0xc0ba6cad,
  0xedb88320, 0x9abfb3b6, 0x03b6e20c, 0x74b1d29a, 0xead54739, 0x9dd277af, 0x04db2615, 0x73dc1683,
  0xe3630b12, 0x94643b84, 0x0d6d6a3e, 0x7a6a5aa8, 0xe40ecf0b, 0x9309ff9d, 0x0a00ae27, 0x7d079eb1,
  0xf00f9344, 0x8708a3d2, 0x1e01f268, 0x6906c2fe, 0xf762575d, 0x806567cb, 0x196c3671, 0x6e6b06e7,
  0xfed41b76, 0x89d32be0, 0x10da7a5a, 0x67dd4acc, 0xf9b9df6f, 0x8ebeeff9, 0x17b7be43, 0x60b08ed5,
  0xd6d6a3e8, 0xa1d1937e, 0x38d8c2c4, 0x4fdff252, 0xd1bb67f1, 0xa6bc5767, 0x3fb506dd, 0x48b2364b,
  0xd80d2bda, 0xaf0a1b4c, 0x36034af6, 0x41047a60, 0xdf60efc3, 0xa867df55, 0x316e8eef, 0x4669be79,
  0xcb61b38c, 0xbc66831a, 0x256fd2a0, 0x5268e236, 0xcc0c7795, 0xbb0b4703, 0x220216b9, 0x5505262f,
  0xc5ba3bbe, 0xb2bd0b28, 0x2bb45a92, 0x5cb36a04, 0xc2d7ffa7, 0xb5d0cf31, 0x2cd99e8b, 0x5bdeae1d,
  0x9b64c2b0, 0xec63f226, 0x756aa39c, 0x026d930a, 0x9c0906a9, 0xeb0e363f, 0x72076785, 0x05005713,
  0x95bf4a82, 0xe2b87a14, 0x7bb12bae, 0x0cb61b38, 0x92d28e9b, 0xe5d5be0d, 0x7cdcefb7, 0x0bdbdf21,
  0x86d3d2d4, 0xf1d4e242, 0x68ddb3f8, 0x1fda836e, 0x81be16cd, 0xf6b9265b, 0x6fb077e1, 0x18b74777,
  0x88085ae6, 0xff0f6a70, 0x66063bca, 0x11010b5c, 0x8f659eff, 0xf862ae69, 0x616bffd3, 0x166ccf45,
  0xa00ae278, 0xd70dd2ee, 0x4e048354, 0x3903b3c2, 0xa7672661, 0xd06016f7, 0x4969474d, 0x3e6e77db,
  0xaed16a4a, 0xd9d65adc, 0x40df0b66, 0x37d83bf0, 0xa9bcae53, 0xdebb9ec5, 0x47b2cf7f, 0x30b5ffe9,
  0xbdbdf21c, 0xcabac28a, 0x53b39330, 0x24b4a3a6, 0xbad03605, 0xcdd70693, 0x54de5729, 0x23d967bf,
  0xb3667a2e, 0xc4614ab8, 0x5d681b02, 0x2a6f2b94, 0xb40bbe37, 0xc30c8ea1, 0x5a05df1b, 0x2d02ef8d]

/-- `mzip_crc32` (mzip.c, lines 83-89; `otezip_crc32` in otezip.c is the
same routine pulled in from `crc32.inc.c`): CRC-32 with the reversed
polynomial table, pre- and post-inverted. -/
def mzip_crc32 (crc0 : Nat) (buf : List Nat) : Nat :=
  let start := 0xFFFFFFFF ^^^ (crc0 % 4294967296)
  let step := fun crc b =>
    (crc32_table.getD ((crc ^^^ b % 256) % 256) 0) ^^^ (crc / 256)
  0xFFFFFFFF ^^^ buf.foldl step start

/-- zlib-style return codes used by the deflate codec
(`Z_OK = 0`, `Z_STREAM_END = 1`, `Z_STREAM_ERROR = -2`, `Z_DATA_ERROR = -3`,
`Z_MEM_ERROR = -4`, `Z_BUF_ERROR = -5`), plus a `fuelOut` constructor that
marks exhaustion of the model's fuel argument (never reached when the fuel
is at least the C loop's iteration bound; the concrete evaluations below
all terminate with a genuine code). -/
inductive ZRet where
  | ok
  | streamEnd
  | streamError
  | dataError
  | memError
  | bufError
  | fuelOut
  deriving Repr, DecidableEq

/-! ## DEFLATE encoder (`deflate-enc.inc.c`)

The encoder is modelled for one `deflate` call. The sliding window is
`malloc`ed in C (uninitialised); the model therefore takes the initial
window contents as an explicit function parameter `window0`. The hash
table is `calloc`ed, hence all-zero. -/

/-- Encoder state (`deflate_state` plus the `z_stream` I/O fields).
`input` is the remaining `next_in`/`avail_in` slice, `output` accumulates
the bytes written through `next_out`. -/
structure EncSt where
  level : Int
  isLastBlock : Bool
  window : Nat → Nat
  windowSize : Nat
  windowMask : Nat
  windowPos : Nat
  hashTable : Nat → Nat
  hashMask : Nat
  bitBuffer : Nat
  bitsInBuffer : Nat
  input : List Nat
  totalIn : Nat
  output : List Nat
  availOut : Nat

/-- `calculate_hash` (deflate.inc.c): 24-bit big-endian combination of
three input bytes. -/
def calculate_hash (d0 d1 d2 : Nat) : Nat :=
  ((d0 % 256) <<< 16) ||| ((d1 % 256) <<< 8) ||| (d2 % 256)

/-- Byte `k` of the remaining encoder input (`strm->next_in[k]`). -/
def encIn (s : EncSt) (k : Nat) : Nat := byteAt s.input k

/-- The byte-draining loop inside `write_bits`: while at least 8 bits are
buffered, emit one byte, or stop with `false` (Z_BUF_ERROR) if the output
slice is full. Fuel is the current bit count, which bounds the
iterations. -/
def drainBits : Nat → EncSt → EncSt × Bool
  | 0, s => (s, true)
  | fuel + 1, s =>
    if s.bitsInBuffer ≥ 8 then
      if s.availOut = 0 then (s, false)
      else
        drainBits fuel
          { s with
            output := s.output ++ [s.bitBuffer % 256]
            availOut := s.availOut - 1
            bitBuffer := s.bitBuffer / 256
            bitsInBuffer := s.bitsInBuffer - 8 }
    else (s, true)

/-- `write_bits` (deflate-enc.inc.c): append `numBits` bits LSB-first into
the 32-bit bit buffer, then drain full bytes. Returns `false` for
`Z_BUF_ERROR` (bits beyond the full output slice stay buffered, as in C). -/
def write_bits (s : EncSt) (bits numBits : Nat) : EncSt × Bool :=
  let s := { s with
    bitBuffer := (s.bitBuffer ||| (bits <<< s.bitsInBuffer)) % 4294967296
    bitsInBuffer := s.bitsInBuffer + numBits }
  drainBits s.bitsInBuffer s

/-- `flush_bits` (deflate-enc.inc.c): emit the final partial byte if any
bits remain; `false` is Z_BUF_ERROR. -/
def flush_bits (s : EncSt) : EncSt × Bool :=
  if s.bitsInBuffer > 0 then
    if s.availOut = 0 then (s, false)
    else
      ({ s with
          output := s.output ++ [s.bitBuffer % 256]
          availOut := s.availOut - 1
          bitBuffer := 0
          bitsInBuffer := 0 }, true)
  else (s, true)

/-- Fixed-Huffman literal/length codes as initialised by
`init_fixed_huffman_deflate` (deflate-enc.inc.c): the table stores the
RFC 1951 canonical code VALUES (not bit-reversed). -/
def encLitCode (i : Nat) : Nat :=
  if i < 144 then 0x30 + i
  else if i < 256 then 0x190 + (i - 144)
  else if i < 280 then i - 256
  else 0xC0 + (i - 280)

/-- Fixed-Huffman literal/length code lengths (`init_fixed_huffman_deflate`). -/
def encLitLen (i : Nat) : Nat :=
  if i < 144 then 8 else if i < 256 then 9 else if i < 280 then 7 else 8

/-- The greedy match-extension loop in `find_longest_match`: extend while
`len < max_len` and the window byte at `win_idx + len` equals the input
byte `data[len]`. Fuel bounds the remaining extension. -/
def matchExtend (s : EncSt) (winIdx maxLen : Nat) : Nat → Nat → Nat
  | len, 0 => len
  | len, fuel + 1 =>
    if len < maxLen ∧ s.window ((winIdx + len) &&& s.windowMask) % 256 = encIn s len then
      matchExtend s winIdx maxLen (len + 1) fuel
    else len

/-- `find_longest_match` (deflate-enc.inc.c). Returns
`(best_len, match_pos, updated state)`; the state update is the hash-table
store for the current position. The C chain-walk `while` loop ends in an
unconditional `break`, so at most one chain entry is examined. -/
def find_longest_match (s : EncSt) (pos maxLen : Nat) : Nat × Nat × EncSt :=
  if maxLen < 3 then (0, 0, s)
  else
    let hash := calculate_hash (encIn s 0) (encIn s 1) (encIn s 2) &&& s.hashMask
    let stored := s.hashTable hash
    let s := { s with
      hashTable := fun h => if h = hash then (pos % 65536 + 1) % 65536 else s.hashTable h }
    if stored = 0 then (0, 0, s)
    else
      let chainPos := stored - 1
      if pos > chainPos + 32768 then (0, 0, s)
      else
        -- while (chain_pos > 0 && chain_len-- > 0): max_chain_length ≥ 32,
        -- and the body ends in break, so the loop runs at most once.
        if chainPos > 0 then
          let winIdx := chainPos &&& s.windowMask
          if s.window winIdx % 256 = encIn s 0 ∧
             s.window ((winIdx + 1) &&& s.windowMask) % 256 = encIn s 1 ∧
             s.window ((winIdx + 2) &&& s.windowMask) % 256 = encIn s 2 then
            let len := matchExtend s winIdx maxLen 3 maxLen
            (len, chainPos, s)
          else (0, 0, s)
        else (0, 0, s)

/-- Length-code selection for a match (`deflate`, match branch): the
length code 257..285 and its extra-bit count, from the match length. -/
def encLengthCode (matchLen : Nat) : Nat × Nat :=
  if matchLen ≤ 10 then (257 + (matchLen - 3), 0)
  else if matchLen ≤ 34 then
    if matchLen ≤ 18 then (265 + (matchLen - 11) / 2, 1)
    else (269 + (matchLen - 19) / 4, 2)
  else if matchLen ≤ 130 then
    if matchLen ≤ 66 then (273 + (matchLen - 35) / 8, 3)
    else (277 + (matchLen - 67) / 16, 4)
  else (281 + (matchLen - 131) / 32, 5)

/-- Base length for the extra-bits computation in the encoder's match
branch (the nested conditional on `extra_bits`). -/
def encLengthExtraBase (extraBits : Nat) : Nat :=
  if extraBits = 1 then 11
  else if extraBits = 2 then 19
  else if extraBits = 3 then 35
  else if extraBits = 4 then 67
  else 131

/-- Distance-code selection for a match (`deflate`, match branch): the
distance code 0..29 and its extra-bit count, from the distance. -/
def encDistCode (distance : Nat) : Nat × Nat :=
  if distance ≤ 4 then (distance - 1, 0)
  else if distance ≤ 256 then
    if distance ≤ 32 then
      if distance ≤ 16 then
        if distance ≤ 8 then (4 + (distance - 5) / 2, 1)
        else (6 + (distance - 9) / 4, 2)
      else (8 + (distance - 17) / 8, 3)
    else if distance ≤ 128 then
      if distance ≤ 64 then (10 + (distance - 33) / 16, 4)
      else (12 + (distance - 65) / 32, 5)
    else (14 + (distance - 129) / 64, 6)
  else
    if distance ≤ 4096 then
      if distance ≤ 1024 then
        if distance ≤ 512 then (16 + (distance - 257) / 128, 7)
        else (18 + (distance - 513) / 256, 8)
      else if distance ≤ 2048 then (20 + (distance - 1025) / 512, 9)
      else (22 + (distance - 2049) / 1024, 10)
    else
      if distance ≤ 16384 then
        if distance ≤ 8192 then (24 + (distance - 4097) / 2048, 11)
        else (26 + (distance - 8193) / 4096, 12)
      else (28 + (distance - 16385) / 8192, 13)

/-- `dist_base_values` (deflate-enc.inc.c), indexed by the distance
extra-bit count. -/
def encDistBase (extraBits : Nat) : Nat :=
  [1, 5, 9, 17, 33, 65, 129, 257, 513, 1025, 2049, 4097, 8193, 16385].getD extraBits 0

/-- Consume `n` input bytes after a match, appending each to the sliding
window (`deflate`, match branch update loop; the loop also stops early
when the input runs out, which the `min` below reproduces because
`match_len ≤ avail_in` holds at every call). -/
def encConsume (s : EncSt) : Nat → EncSt
  | 0 => s
  | n + 1 =>
    match s.input with
    | [] => s
    | b :: rest =>
      encConsume
        { s with
          window := fun i => if i = s.windowPos then b % 256 else s.window i
          windowPos := (s.windowPos + 1) &&& s.windowMask
          input := rest
          totalIn := s.totalIn + 1 } n

/-- One iteration body plus loop of `deflate`'s fixed-Huffman encoding
loop (`while (strm->avail_in > 0)`). Fuel dominates the remaining input
length; every iteration consumes at least one input byte. Returns the
state and `none` for normal exit, `some ret` for an early return. -/
def deflateFixedLoop : Nat → EncSt → EncSt × Option ZRet
  | 0, s => (s, some .fuelOut)
  | fuel + 1, s =>
    if s.input = [] then (s, none)
    else if s.availOut < 4 then (s, some .bufError)
    else
      let maxLookAhead := min s.input.length 258
      let (matchLen, matchPos, s) :=
        if s.level ≥ 3 ∧ maxLookAhead ≥ 3 then
          find_longest_match s s.windowPos maxLookAhead
        else (0, 0, s)
      if matchLen ≥ 3 then
        let (lengthCode, extraBits) := encLengthCode matchLen
        -- write_huffman_code: return value ignored by the C code here
        let s := (write_bits s (encLitCode lengthCode) (encLitLen lengthCode)).1
        let s :=
          if extraBits > 0 then
            let extraValue := (matchLen - encLengthExtraBase extraBits) &&& (2 ^ extraBits - 1)
            (write_bits s extraValue extraBits).1
          else s
        let distance := usub32 s.windowPos matchPos
        let (distanceCode, distExtraBits) := encDistCode distance
        let s := (write_bits s (distanceCode &&& 31) 5).1
        let s :=
          if distExtraBits > 0 then
            let extraValue := usub32 distance (encDistBase distExtraBits) &&& (2 ^ distExtraBits - 1)
            (write_bits s extraValue distExtraBits).1
          else s
        deflateFixedLoop fuel (encConsume s matchLen)
      else
        let literal := encIn s 0
        let s := (write_bits s (encLitCode literal) (encLitLen literal)).1
        deflateFixedLoop fuel (encConsume s 1)

/-- The `Z_NO_COMPRESSION` branch of `deflate` (level 0): a single stored
block. `headerSize` evaluates to 1 byte exactly as the C arithmetic does. -/
def deflateStored (s : EncSt) (flush : Nat) : EncSt × ZRet :=
  if s.input ≠ [] then
    let headerSize := 1
    let blockSize := headerSize + 4 + s.input.length
    if s.availOut < blockSize then (s, .bufError)
    else
      let s := { s with
        output := s.output ++ [if s.isLastBlock then 1 else 0]
        availOut := s.availOut - 1 }
      let len := min s.input.length 65535
      let s := { s with
        output := s.output ++ otezip_wr16 len ++ otezip_wr16 (65535 - len)
        availOut := s.availOut - 4 }
      let s := { s with
        output := s.output ++ (s.input.take len).map (· % 256)
        input := s.input.drop len
        totalIn := s.totalIn + len
        availOut := s.availOut - len }
      (s, if flush = 4 then .streamEnd else .ok)
  else (s, if flush = 4 then .streamEnd else .ok)

/-- `deflate` (deflate-enc.inc.c, lines 267-546), one call. `flush = 4` is
`Z_FINISH`. -/
def deflateCall (s : EncSt) (flush : Nat) : EncSt × ZRet :=
  let s := if flush = 4 then { s with isLastBlock := true } else s
  if s.level = 0 then deflateStored s flush
  else if s.input ≠ [] then
    let (s, ok1) := write_bits s (if s.isLastBlock then 1 else 0) 1
    if ¬ ok1 then (s, .bufError)
    else
      let (s, ok2) := write_bits s 1 2
      if ¬ ok2 then (s, .bufError)
      else
        match deflateFixedLoop (s.input.length + 1) s with
        | (s, some ret) => (s, ret)
        | (s, none) =>
          let s :=
            if flush = 4 then
              let s := (write_bits s (encLitCode 256) (encLitLen 256)).1
              (flush_bits s).1
            else s
          (s, if flush = 4 then .streamEnd else .ok)
  else (s, if flush = 4 then .streamEnd else .ok)

/-- `deflateInit2` state for raw deflate with window-bits magnitude
`wbits` (8..15): window of `2^wbits` bytes with caller-supplied
(uninitialised-`malloc`) contents `window0`, `calloc`ed hash table of
`2^(wbits-3)` slots, level `-1` normalised to 6. -/
def deflateInit2St (level : Int) (wbits : Nat) (window0 : Nat → Nat)
    (input : List Nat) (availOut : Nat) : EncSt :=
  { level := if level = -1 then 6 else level
    isLastBlock := false
    window := window0
    windowSize := 2 ^ wbits
    windowMask := 2 ^ wbits - 1
    windowPos := 0
    hashTable := fun _ => 0
    hashMask := 2 ^ (wbits - 3) - 1
    bitBuffer := 0
    bitsInBuffer := 0
    input := input
    totalIn := 0
    output := []
    availOut := availOut }

/-- One-shot raw-deflate encode as the library performs it
(`otezip_compress_data`, test/unit/test_deflate.c): `deflateInit2` with
`windowBits = -MAX_WBITS`, a single `deflate(.., Z_FINISH)` call over the
whole input. Returns the return code and the produced bytes. -/
def deflateOneShot (level : Int) (window0 : Nat → Nat) (input : List Nat)
    (availOut : Nat) : ZRet × List Nat :=
  let (s, ret) := deflateCall (deflateInit2St level 15 window0 input availOut) 4
  (ret, s.output)

/-! ## DEFLATE decoder (`deflate-dec.inc.c`)

Modelled for the raw-deflate configuration (`inflateInit2` with negative
`windowBits`, `wrap = WRAP_NONE`), which is how both
`otezip_extract_entry` and the round-trip scenario invoke it; the
zlib/gzip wrapper-peel branch at the top of `inflate` is not entered in
that configuration. The decoder window is `malloc`ed in C, so its initial
contents are again a parameter. -/

/-- `huffman_table` (deflate.inc.c): per-symbol canonical codes and code
lengths. When a symbol has length 0, `build_huffman_tree` leaves its
`codes` slot unwritten in C; the model stores 0 there, which the symbol
searches can never observe because they require `lengths[i] = len ≥ 1`. -/
structure HuffTable where
  codes : List Nat
  lengths : List Nat
  count : Nat

/-- Decoder state (`inflate_state` plus the `z_stream` I/O fields). -/
structure InfSt where
  bitBuffer : Nat
  bitsInBuffer : Nat
  finalBlock : Bool
  literals : HuffTable
  distances : HuffTable
  stateNum : Nat
  btype : Nat
  window : Nat → Nat
  windowSize : Nat
  windowPos : Nat
  pendingCopy : Bool
  pendingLength : Nat
  pendingDistance : Nat
  pendingLiteral : Option Nat
  input : List Nat
  totalIn : Nat
  output : List Nat
  availOut : Nat

/-- `get_bit` (deflate-dec.inc.c): refill the bit buffer from the input
when empty, then pop the least significant bit. `none` is the C return
value `-1` (no more input). -/
def getBit (s : InfSt) : Option (Nat × InfSt) :=
  if s.bitsInBuffer = 0 then
    match s.input with
    | [] => none
    | b :: rest =>
      let s := { s with bitBuffer := b % 256, bitsInBuffer := 8, input := rest,
                        totalIn := s.totalIn + 1 }
      some (s.bitBuffer % 2, { s with bitBuffer := s.bitBuffer / 2,
                                      bitsInBuffer := s.bitsInBuffer - 1 })
  else
    some (s.bitBuffer % 2, { s with bitBuffer := s.bitBuffer / 2,
                                    bitsInBuffer := s.bitsInBuffer - 1 })

/-- The slow path of `get_bits`: `n` single-bit reads, accumulated
LSB-first; `i` is the bit position being filled. -/
def getBitsSlow : Nat → Nat → Nat → InfSt → Option (Nat × InfSt)
  | 0, _, result, s => some (result, s)
  | rem + 1, i, result, s =>
    match getBit s with
    | none => none
    | some (bit, s) => getBitsSlow rem (i + 1) (result ||| (bit <<< i)) s

/-- `get_bits` (deflate-dec.inc.c): take `n` bits right-aligned, using the
buffered fast path when enough bits are available. -/
def getBits (s : InfSt) (n : Nat) : Option (Nat × InfSt) :=
  if n ≤ s.bitsInBuffer then
    some (s.bitBuffer &&& (2 ^ n - 1),
      { s with bitBuffer := s.bitBuffer >>> n, bitsInBuffer := s.bitsInBuffer - n })
  else getBitsSlow n 0 0 s

/-- The `next_code` recurrence of `build_huffman_tree`: starting code for
each code length, on `uint16_t`. -/
def nextCodeAux (blCount : Nat → Nat) : Nat → Nat
  | 0 => 0
  | b + 1 => ((nextCodeAux blCount b + blCount b) <<< 1) % 65536

/-- The code-assignment pass of `build_huffman_tree`: walk symbols in
order, giving each nonzero-length symbol the next code of its length
(`next_code[lengths[i]]++`). Returns the codes and lengths columns. -/
def assignCodes (lens : Nat → Nat) : List Nat → (Nat → Nat) → List Nat × List Nat
  | [], _ => ([], [])
  | i :: rest, nc =>
    if 0 < lens i then
      let c := nc (lens i)
      let p := assignCodes lens rest (fun l => if l = lens i then (nc l + 1) % 65536 else nc l)
      (c :: p.1, lens i :: p.2)
    else
      let p := assignCodes lens rest nc
      (0 :: p.1, 0 :: p.2)

/-- `build_huffman_tree` (deflate-dec.inc.c): canonical Huffman code
assignment from code lengths; `none` is `Z_DATA_ERROR` (a length above
15). -/
def build_huffman_tree (lengths : List Nat) (numCodes : Nat) : Option HuffTable :=
  let lens := fun i => lengths.getD i 0
  if (List.range numCodes).any (fun i => 15 < lens i) then none
  else
    let blCount := fun l => if l = 0 then 0 else ((List.range numCodes).filter (fun i => lens i = l)).length
    let p := assignCodes lens (List.range numCodes) (nextCodeAux blCount)
    some { codes := p.1, lengths := p.2, count := numCodes }

/-- The fixed literal/length code lengths of `init_fixed_huffman`. -/
def fixedLitLengths : List Nat :=
  List.replicate 144 8 ++ List.replicate 112 9 ++ List.replicate 24 7 ++ List.replicate 8 8

/-- Fixed literal/length table built by `init_fixed_huffman` via
`build_huffman_tree` (which cannot fail on these lengths). -/
def fixedLiterals : HuffTable :=
  (build_huffman_tree fixedLitLengths 288).getD { codes := [], lengths := [], count := 0 }

/-- Fixed distance table built by `init_fixed_huffman` (all lengths 5). -/
def fixedDistances : HuffTable :=
  (build_huffman_tree (List.replicate 32 5) 32).getD { codes := [], lengths := [], count := 0 }

/-- The symbol search shared by every Huffman decode loop: the first
symbol `i < count` whose `(length, code)` pair matches. -/
def tableFind (tab : HuffTable) (len code : Nat) : Option Nat :=
  (List.range tab.count).find? fun i =>
    (tab.lengths.getD i 0 == len) && (tab.codes.getD i 0 == code)

/-- The bit-at-a-time Huffman decode loop (state 2 of `inflate`, also used
for the code-length alphabet and distance codes): shift in one bit, search
the table at the current length, up to 15 bits. `none` covers both the C
outcomes `bit < 0` and `length > 15`, each of which yields `Z_DATA_ERROR`
at every call site. -/
def decodeSymGo (tab : HuffTable) : Nat → Nat → Nat → InfSt → Option (Nat × InfSt)
  | 0, _, _, _ => none
  | fuel + 1, code, len, s =>
    if 15 < len then none
    else
      match getBit s with
      | none => none
      | some (bit, s) =>
        let code := code * 2 + bit
        match tableFind tab len code with
        | some i => some (i, s)
        | none => decodeSymGo tab fuel code (len + 1) s

/-- Decode one Huffman symbol from the bit stream against `tab`. -/
def decodeSym (tab : HuffTable) (s : InfSt) : Option (Nat × InfSt) :=
  decodeSymGo tab 16 0 1 s

/-- Append decoded bytes to the circular window
(the post-copy window-store loops of the decoder). -/
def windowAppend (s : InfSt) (bytes : List Nat) : InfSt :=
  bytes.foldl
    (fun s b =>
      { s with window := fun i => if i = s.windowPos then b % 256 else s.window i
               windowPos := (s.windowPos + 1) &&& (s.windowSize - 1) })
    s

/-- The copy loop of `do_copy_from_window`: copy while bytes remain and
output space is available, reading `window[(window_pos - distance) & mask]`
and appending each byte back to the window. Returns the state and the
remaining (uncopied) length. Fuel dominates `length`. -/
def copyLoop : Nat → Nat → Nat → InfSt → InfSt × Nat
  | 0, length, _, s => (s, length)
  | fuel + 1, length, distance, s =>
    if 0 < length ∧ 0 < s.availOut then
      let byte := s.window (usub32 s.windowPos distance &&& (s.windowSize - 1)) % 256
      copyLoop fuel (length - 1) distance
        { s with output := s.output ++ [byte]
                 availOut := s.availOut - 1
                 window := fun i => if i = s.windowPos then byte else s.window i
                 windowPos := (s.windowPos + 1) &&& (s.windowSize - 1) }
    else (s, length)

/-- `do_copy_from_window` (deflate-dec.inc.c): copy with partial-output
resumption bookkeeping. -/
def do_copy_from_window (s : InfSt) (length distance : Nat) : InfSt :=
  let p := copyLoop (length + 1) length distance s
  if 0 < p.2 then
    { p.1 with pendingCopy := true, pendingLength := p.2, pendingDistance := distance }
  else { p.1 with pendingCopy := false }

/-- `read_uncompressed_block` (deflate-dec.inc.c): byte-align, check
`LEN`/`NLEN` (`(uint16)~nlen = 65535 - nlen`), bounds-check, copy to
output and window. `some ret` is an early error return. -/
def read_uncompressed_block (s : InfSt) : InfSt × Option ZRet :=
  let s := { s with bitsInBuffer := 0 }
  if s.input.length < 4 then (s, some .dataError)
  else
    let len := byteAt s.input 0 + byteAt s.input 1 * 256
    let nlen := byteAt s.input 2 + byteAt s.input 3 * 256
    let s := { s with input := s.input.drop 4, totalIn := s.totalIn + 4 }
    if len ≠ 65535 - nlen then (s, some .dataError)
    else if s.input.length < len then (s, some .dataError)
    else if s.availOut < len then (s, some .bufError)
    else
      let bytes := (s.input.take len).map (· % 256)
      let s := { s with output := s.output ++ bytes
                        input := s.input.drop len
                        totalIn := s.totalIn + len
                        availOut := s.availOut - len }
      (windowAppend s bytes, none)

/-- The code-length-alphabet permutation `cl_order`
(read_dynamic_huffman). -/
def clOrder : List Nat :=
  [16, 17, 18, 0] ++ [8, 7] ++ [9, 6] ++ [10, 5] ++ [11, 4] ++ [12, 3] ++
    [13, 2] ++ [14, 1] ++ [15]

/-- The `hclen` 3-bit reads of `read_dynamic_huffman`, scattered through
`cl_order` into the code-length array. -/
def readClLens : Nat → Nat → (Nat → Nat) → InfSt → Option ((Nat → Nat) × InfSt)
  | 0, _, cl, s => some (cl, s)
  | rem + 1, i, cl, s =>
    match getBits s 3 with
    | none => none
    | some (len, s) =>
      readClLens rem (i + 1) (fun j => if j = clOrder.getD i 0 then len else cl j) s

/-- The literal/distance code-length read loop of `read_dynamic_huffman`:
decode a code-length symbol, append it or expand the repeat codes 16/17/18,
stopping at `hlit + hdist` entries (`LL_LENGTHS_MAX = 318` caps the
index as in C). Fuel dominates the entry count. -/
def readCodeLensGo (clTab : HuffTable) (hl : Nat) : Nat → List Nat → InfSt →
    Option (List Nat × InfSt)
  | 0, _, _ => none
  | fuel + 1, acc, s =>
    if acc.length < hl ∧ acc.length < 318 then
      match decodeSym clTab s with
      | none => none
      | some (code, s) =>
        if code < 16 then
          if acc.length ≥ 318 then none
          else readCodeLensGo clTab hl fuel (acc ++ [code]) s
        else if code = 16 then
          if acc.length = 0 then none
          else
            match getBits s 2 with
            | none => none
            | some (rep, s) =>
              let rep := rep + 3
              if acc.length + rep > hl ∨ acc.length + rep > 318 then none
              else readCodeLensGo clTab hl fuel (acc ++ List.replicate rep (acc.getLastD 0)) s
        else if code = 17 then
          match getBits s 3 with
          | none => none
          | some (rep, s) =>
            let rep := rep + 3
            if acc.length + rep > hl ∨ acc.length + rep > 318 then none
            else readCodeLensGo clTab hl fuel (acc ++ List.replicate rep 0) s
        else if code = 18 then
          match getBits s 7 with
          | none => none
          | some (rep, s) =>
            let rep := rep + 11
            if acc.length + rep > hl ∨ acc.length + rep > 318 then none
            else readCodeLensGo clTab hl fuel (acc ++ List.replicate rep 0) s
        else none
    else some (acc, s)

/-- `read_dynamic_huffman` (deflate-dec.inc.c): read HLIT/HDIST/HCLEN,
build the code-length tree, expand the code lengths, build the
literal/length and distance trees. `none` is `Z_DATA_ERROR`. -/
def read_dynamic_huffman (s : InfSt) : Option InfSt :=
  match getBits s 5 with
  | none => none
  | some (hlit0, s) =>
    let hlit := hlit0 + 257
    match getBits s 5 with
    | none => none
    | some (hdist0, s) =>
      let hdist := hdist0 + 1
      match getBits s 4 with
      | none => none
      | some (hclen0, s) =>
        let hclen := hclen0 + 4
        match readClLens hclen 0 (fun _ => 0) s with
        | none => none
        | some (cl, s) =>
          match build_huffman_tree ((List.range 19).map cl) 19 with
          | none => none
          | some clTab =>
            match readCodeLensGo clTab (hlit + hdist) (hlit + hdist + 1) [] s with
            | none => none
            | some (lls, s) =>
              match build_huffman_tree lls hlit with
              | none => none
              | some lit =>
                match build_huffman_tree (lls.drop hlit) hdist with
                | none => none
                | some dist => some { s with literals := lit, distances := dist }

/-- `length_base` (inflate, state 2). -/
def lengthBase : List Nat :=
  [3, 4, 5, 6, 7, 8, 9, 10] ++ [11, 13, 15, 17] ++ [19, 23, 27, 31] ++
    [35, 43, 51, 59] ++ [67, 83, 99, 115] ++ [131, 163, 195, 227] ++ [258]

/-- `length_extra` (inflate, state 2). -/
def lengthExtra : List Nat :=
  [0, 0, 0, 0, 0, 0, 0, 0] ++ [1, 1, 1, 1] ++ [2, 2, 2, 2] ++ [3, 3, 3, 3] ++
    [4, 4, 4, 4] ++ [5, 5, 5, 5] ++ [0]

/-- `dist_base` (inflate, state 2). -/
def distBase : List Nat :=
  [1, 2, 3, 4] ++ [5, 7] ++ [9, 13] ++ [17, 25] ++ [33, 49] ++ [65, 97] ++
    [129, 193] ++ [257, 385] ++ [513, 769] ++ [1025, 1537] ++ [2049, 3073] ++
    [4097, 6145] ++ [8193, 12289] ++ [16385, 24577]

/-- `dist_extra` (inflate, state 2). -/
def distExtra : List Nat :=
  [0, 0, 0, 0] ++ [1, 1] ++ [2, 2] ++ [3, 3] ++ [4, 4] ++ [5, 5] ++ [6, 6] ++
    [7, 7] ++ [8, 8] ++ [9, 9] ++ [10, 10] ++ [11, 11] ++ [12, 12] ++ [13, 13]

/-- State 2 of `inflate`: decode one literal/length symbol and act on it.
`some ret` is an early return from the call; `none` means fall through to
the post-switch checks. -/
def inflateState2 (s : InfSt) : InfSt × Option ZRet :=
  match decodeSym s.literals s with
  | none => (s, some .dataError)
  | some (code, s) =>
    if code < 256 then
      if s.availOut = 0 then ({ s with pendingLiteral := some code }, some .ok)
      else
        (({ s with output := s.output ++ [code % 256]
                   availOut := s.availOut - 1
                   window := fun i => if i = s.windowPos then code % 256 else s.window i
                   windowPos := (s.windowPos + 1) &&& (s.windowSize - 1) }), none)
    else if code = 256 then
      let s := { s with stateNum := 0 }
      if s.finalBlock then (s, some .streamEnd) else (s, none)
    else if code ≤ 285 then
      let lengthIdx := code - 257
      let baseLen := lengthBase.getD lengthIdx 0
      let extraBits := lengthExtra.getD lengthIdx 0
      let stepLen : Option (Nat × InfSt) :=
        if 0 < extraBits then
          match getBits s extraBits with
          | none => none
          | some (extra, s) => some (baseLen + extra, s)
        else some (baseLen, s)
      match stepLen with
      | none => (s, some .dataError)
      | some (length, s) =>
        match decodeSym s.distances s with
        | none => (s, some .dataError)
        | some (dcode, s) =>
          let baseDist := distBase.getD dcode 0
          let distExtraBits := distExtra.getD dcode 0
          let stepDist : Option (Nat × InfSt) :=
            if 0 < distExtraBits then
              match getBits s distExtraBits with
              | none => none
              | some (extra, s) => some (baseDist + extra, s)
            else some (baseDist, s)
          match stepDist with
          | none => (s, some .dataError)
          | some (distance, s) =>
            if s.windowSize < distance then (s, some .dataError)
            else
              let s := do_copy_from_window s length distance
              if s.pendingCopy then (s, some .ok) else (s, none)
    else (s, some .dataError)

/-- One execution of the `switch (state->state)` body in `inflate`'s main
loop. -/
def inflateStepBody (s : InfSt) : InfSt × Option ZRet :=
  if s.stateNum = 0 then
    match getBit s with
    | none => (s, some .dataError)
    | some (fb, s) =>
      match getBits s 2 with
      | none => (s, some .dataError)
      | some (bt, s) =>
        ({ s with finalBlock := fb = 1, btype := bt, stateNum := 1 }, none)
  else if s.stateNum = 1 then
    if s.btype = 0 then
      match read_uncompressed_block s with
      | (s, some ret) => (s, some ret)
      | (s, none) => ({ s with stateNum := 0 }, none)
    else if s.btype = 1 then
      ({ s with literals := fixedLiterals, distances := fixedDistances, stateNum := 2 }, none)
    else if s.btype = 2 then
      match read_dynamic_huffman s with
      | none => (s, some .dataError)
      | some s => ({ s with stateNum := 2 }, none)
    else (s, some .dataError)
  else if s.stateNum = 2 then inflateState2 s
  else (s, some .streamError)

/-- The main `while (strm->avail_in > 0)` loop of `inflate`, including the
post-switch end-of-stream checks and the post-loop epilogue. Fuel
dominates the iteration count (each iteration consumes input bits except
the once-per-block transition into state 2). -/
def inflateLoop (flush : Nat) : Nat → InfSt → InfSt × ZRet
  | 0, s => (s, .fuelOut)
  | fuel + 1, s =>
    if s.input = [] then
      if s.finalBlock ∧ s.stateNum = 0 then (s, .streamEnd)
      else if s.availOut = 0 then (s, .ok)
      else (s, .bufError)
    else
      match inflateStepBody s with
      | (s, some ret) => (s, ret)
      | (s, none) =>
        if s.finalBlock ∧ s.stateNum = 0 then (s, .streamEnd)
        else if flush = 4 ∧ s.input = [] then
          if ¬s.finalBlock ∨ s.stateNum ≠ 0 then (s, .bufError) else (s, .streamEnd)
        else inflateLoop flush fuel s

/-- `inflate` (deflate-dec.inc.c, lines 548-832) for the raw-deflate
configuration: resume a pending literal, resume a pending copy, then run
the block loop. -/
def inflateCallRaw (fuel : Nat) (s : InfSt) (flush : Nat) : InfSt × ZRet :=
  let afterLit : InfSt × Option ZRet :=
    match s.pendingLiteral with
    | some lit =>
      if s.availOut = 0 then (s, some .ok)
      else
        ({ s with output := s.output ++ [lit % 256]
                  availOut := s.availOut - 1
                  window := fun i => if i = s.windowPos then lit % 256 else s.window i
                  windowPos := (s.windowPos + 1) &&& (s.windowSize - 1)
                  pendingLiteral := none }, none)
    | none => (s, none)
  match afterLit with
  | (s, some ret) => (s, ret)
  | (s, none) =>
    let s := if s.pendingCopy then do_copy_from_window s s.pendingLength s.pendingDistance else s
    if s.pendingCopy then (s, .ok)
    else inflateLoop flush fuel s

/-- `inflateInit2` state for raw deflate with window-bits magnitude
`wbits` (clamped to 8..15 as in C): `calloc`ed state, `malloc`ed
(uninitialised) window supplied as `window0`. -/
def inflateInitRawSt (wbits : Nat) (window0 : Nat → Nat) (input : List Nat)
    (availOut : Nat) : InfSt :=
  let actualBits := min (max wbits 8) 15
  { bitBuffer := 0
    bitsInBuffer := 0
    finalBlock := false
    literals := { codes := [], lengths := [], count := 0 }
    distances := { codes := [], lengths := [], count := 0 }
    stateNum := 0
    btype := 0
    window := window0
    windowSize := 2 ^ actualBits
    windowPos := 0
    pendingCopy := false
    pendingLength := 0
    pendingDistance := 0
    pendingLiteral := none
    input := input
    totalIn := 0
    output := []
    availOut := availOut }

/-- One-shot raw inflate as the library performs it
(`otezip_extract_entry`, test/unit/test_deflate.c): `inflateInit2` with
`windowBits = -MAX_WBITS`, one `inflate(.., Z_FINISH)` call. The fuel
`16 * |input| + 32` exceeds the C loop's iteration bound (every iteration
but the once-per-block entry into state 2 consumes at least one input
bit). -/
def inflateOneShot (window0 : Nat → Nat) (input : List Nat) (availOut : Nat) :
    ZRet × List Nat :=
  let s := inflateInitRawSt 15 window0 input availOut
  let p := inflateCallRaw (16 * input.length + 32) s 4
  (p.2, p.1.output)

/-! ## Container engine (`otezip.c`)

Files are byte lists. I/O never fails in the pure model (no `fseek`/`fread`
errors, no allocation failures), so only the structural error paths of the
C code appear. Each `return -1` site of `otezip_extract_entry` gets its own
error constructor so that statements can distinguish which check fired. -/

/-- `struct otezip_entry` (include/otezip/zip.h): a central-directory
entry as held in memory. All fields are the on-disk unsigned values. -/
structure OtezipEntry where
  local_hdr_ofs : Nat
  comp_size : Nat
  uncomp_size : Nat
  method : Nat
  crc32 : Nat
  file_time : Nat
  file_date : Nat
  external_attr : Nat
  deriving Repr, DecidableEq

/-- The distinct `return -1` sites of `otezip_extract_entry`, in source
order. `zipbomb` is the expansion-guard rejection (otezip.c lines
430-439). -/
inductive ExtractErr where
  | badLocalOfs
  | lfhTruncated
  | badLfhSig
  | badDataOfs
  | sizeTooBig
  | payloadOutOfBounds
  | zipbomb
  | inflateFailed
  | unsupportedMethod
  | crcMismatch
  deriving Repr, DecidableEq

/-- Outcome of `otezip_extract_entry`: the delivered buffer and `*out_sz`,
an error, or entry of one of the non-STORE/DEFLATE codec branches (ZSTD /
LZFSE / LZMA / BROTLI), whose stub plug-in codecs are outside the claims'
scope and are not modelled. -/
inductive ExtractResult where
  | ok (buf : List Nat) (outSz : Nat)
  | err (kind : ExtractErr)
  | otherCodec (method : Nat)
  deriving Repr, DecidableEq

/-- Offset of an entry's compressed payload:
`local_hdr_ofs + 30 + fn_len + extra_len` with the name/extra lengths read
from the local file header (otezip.c line 413). -/
def lfhDataOfs (file : List Nat) (e : OtezipEntry) : Nat :=
  e.local_hdr_ofs + 30 + otezip_rd16 file (e.local_hdr_ofs + 26) +
    otezip_rd16 file (e.local_hdr_ofs + 28)

/-- `MZIP_MAX_PAYLOAD` (otezip.c): 2 GiB. -/
def MZIP_MAX_PAYLOAD : Nat := 2147483648

/-- `otezip_extract_entry` (otezip.c, lines 375-654). `ignoreZipbomb`,
`verifyCrc`, `ratio` and `slack` model the process-wide variables
`otezip_ignore_zipbomb`, `otezip_verify_crc`,
`otezip_max_expansion_ratio` and `otezip_max_expansion_slack`
(defaults `false`, `false`, 1000, 1 MiB). `window0` is the decoder's
uninitialised (`malloc`ed) window. In the DEFLATE branch the output
buffer is `memset` to zero before inflation, so the delivered buffer is
the inflate output padded with zeros to `uncomp_size`; the C code checks
only for `Z_STREAM_END` and never compares `total_out` against
`uncomp_size`. The final CRC is computed over `uncomp_size` bytes of the
delivered buffer (for a STORE entry whose `uncomp_size` exceeds
`comp_size` the C reads past the allocation; the model clamps with
`take`, and no theorem below depends on that case). -/
def otezip_extract_entry (ignoreZipbomb verifyCrc : Bool) (ratio slack : Nat)
    (window0 : Nat → Nat) (file : List Nat) (e : OtezipEntry) : ExtractResult :=
  let fileSz := file.length
  if e.local_hdr_ofs > fileSz then .err .badLocalOfs
  else if fileSz < e.local_hdr_ofs + 30 then .err .lfhTruncated
  else if otezip_rd32 file e.local_hdr_ofs ≠ 0x04034b50 then .err .badLfhSig
  else
    let dataOfs := lfhDataOfs file e
    if dataOfs > fileSz then .err .badDataOfs
    else if e.comp_size > MZIP_MAX_PAYLOAD ∨ e.uncomp_size > MZIP_MAX_PAYLOAD then
      .err .sizeTooBig
    else if dataOfs + e.comp_size > fileSz then .err .payloadOutOfBounds
    else if ¬ignoreZipbomb ∧ 0 < e.comp_size ∧
        e.comp_size * ratio + slack < e.uncomp_size then .err .zipbomb
    else
      let cbuf := ((file.drop dataOfs).take e.comp_size).map (· % 256)
      let deliver : List Nat → ExtractResult := fun ubuf =>
        let computed := mzip_crc32 0 (ubuf.take e.uncomp_size)
        if computed ≠ e.crc32 % 4294967296 then
          if verifyCrc then .err .crcMismatch else .ok ubuf e.uncomp_size
        else .ok ubuf e.uncomp_size
      if e.method = 0 then deliver cbuf
      else if e.method = 8 then
        let p := inflateOneShot window0 cbuf e.uncomp_size
        if p.1 ≠ .streamEnd then .err .inflateFailed
        else deliver (p.2 ++ List.replicate (e.uncomp_size - p.2.length) 0)
      else if e.method = 93 ∨ e.method = 100 ∨ e.method = 14 ∨ e.method = 97 then
        .otherCodec e.method
      else .err .unsupportedMethod

/-! ## EOCD search (`otezip_find_eocd`, otezip.c lines 185-255) -/

/-- Result of the EOCD search: the EOCD's file offset with the committed
entry count / central-directory size / offset, or archive-inconsistent
(`OTEZIP_ERR_INCONS`; the pure model has no `OTEZIP_ERR_READ` I/O
failures). -/
inductive EocdResult where
  | found (pos entries cdSize cdOfs : Nat)
  | incons
  deriving Repr, DecidableEq

/-- One candidate test of `otezip_find_eocd`'s scan loop at index `i` of
the search buffer, exactly as the C code performs it: EOCD signature,
64-bit bounds check (`cd_ofs` is compared against `(uint32_t)file_size`),
and the CDH-signature probe, the latter only when `entries > 0 ∧
cd_size ≥ 4`. `none` means `continue`. -/
def eocdCandidate (file buf : List Nat) (fileSize searchLen i : Nat) :
    Option (Nat × Nat × Nat × Nat) :=
  if otezip_rd32 buf i = 0x06054b50 then
    if otezip_rd32 buf (i + 16) > fileSize % 4294967296 ∨
        otezip_rd32 buf (i + 16) + otezip_rd32 buf (i + 12) > fileSize then none
    else if 0 < otezip_rd16 buf (i + 10) ∧ 4 ≤ otezip_rd32 buf (i + 12) then
      if otezip_rd32 file (otezip_rd32 buf (i + 16)) ≠ 0x02014b50 then none
      else some (fileSize - searchLen + i, otezip_rd16 buf (i + 10),
        otezip_rd32 buf (i + 12), otezip_rd32 buf (i + 16))
    else some (fileSize - searchLen + i, otezip_rd16 buf (i + 10),
      otezip_rd32 buf (i + 12), otezip_rd32 buf (i + 16))
  else none

/-- The high-to-low scan `for (i = search_len - 22; i != (size_t)-1; --i)`:
try index `i` downwards to 0, taking the first accepted candidate. -/
def eocdScan (tryAt : Nat → Option (Nat × Nat × Nat × Nat)) : Nat → Option (Nat × Nat × Nat × Nat)
  | 0 => tryAt 0
  | i + 1 =>
    match tryAt (i + 1) with
    | some r => some r
    | none => eocdScan tryAt i

/-- `otezip_find_eocd` (otezip.c, lines 185-255): search the last
`min(file_size, 65558)` bytes for a validated EOCD record. -/
def otezip_find_eocd (file : List Nat) : EocdResult :=
  if file.length < 22 then .incons
  else
    match eocdScan
        (eocdCandidate file (file.drop (file.length - min file.length 65558))
          file.length (min file.length 65558))
        (min file.length 65558 - 22) with
    | some (pos, entries, cdSize, cdOfs) => .found pos entries cdSize cdOfs
    | none => .incons

/-- Candidate validation exactly as claim C4 words it: every candidate
must pass the bounds check AND the CDH-signature check at `cd_offset`
(no exemption for zero-entry candidates). This definition follows the
spec sentence, for comparison against `otezip_find_eocd`. -/
def eocdCandidateClaim (file buf : List Nat) (fileSize searchLen i : Nat) :
    Option (Nat × Nat × Nat × Nat) :=
  if otezip_rd32 buf i = 0x06054b50 then
    if otezip_rd32 buf (i + 16) ≤ fileSize ∧
        otezip_rd32 buf (i + 16) + otezip_rd32 buf (i + 12) ≤ fileSize ∧
        otezip_rd32 file (otezip_rd32 buf (i + 16)) = 0x02014b50 then
      some (fileSize - searchLen + i, otezip_rd16 buf (i + 10),
        otezip_rd32 buf (i + 12), otezip_rd32 buf (i + 16))
    else none
  else none

/-- The claim's version of the EOCD search (same scan, candidate
validation per the claim's words). -/
def findEocdClaim (file : List Nat) : EocdResult :=
  if file.length < 22 then .incons
  else
    match eocdScan
        (eocdCandidateClaim file (file.drop (file.length - min file.length 65558))
          file.length (min file.length 65558))
        (min file.length 65558 - 22) with
    | some (pos, entries, cdSize, cdOfs) => .found pos entries cdSize cdOfs
    | none => .incons

/-- Candidate validation per the AMENDED claim: bounds check always, and
the CDH-signature check at `cd_offset` only for candidates that declare at
least one entry and a central directory of at least 4 bytes. -/
def eocdCandidateAmended (file buf : List Nat) (fileSize searchLen i : Nat) :
    Option (Nat × Nat × Nat × Nat) :=
  if otezip_rd32 buf i = 0x06054b50 then
    if otezip_rd32 buf (i + 16) ≤ fileSize ∧
        otezip_rd32 buf (i + 16) + otezip_rd32 buf (i + 12) ≤ fileSize ∧
        (0 < otezip_rd16 buf (i + 10) ∧ 4 ≤ otezip_rd32 buf (i + 12) →
          otezip_rd32 file (otezip_rd32 buf (i + 16)) = 0x02014b50) then
      some (fileSize - searchLen + i, otezip_rd16 buf (i + 10),
        otezip_rd32 buf (i + 12), otezip_rd32 buf (i + 16))
    else none
  else none

/-- The amended claim's version of the EOCD search. -/
def findEocdAmended (file : List Nat) : EocdResult :=
  if file.length < 22 then .incons
  else
    match eocdScan
        (eocdCandidateAmended file (file.drop (file.length - min file.length 65558))
          file.length (min file.length 65558))
        (min file.length 65558 - 22) with
    | some (pos, entries, cdSize, cdOfs) => .found pos entries cdSize cdOfs
    | none => .incons

/-! ## Adding an entry (`zip_file_add`, `otezip_compress_data`) -/

/-- `compressBound` (deflate.inc.c): conservative deflate output bound. -/
def compressBound (sourceLen : Nat) : Nat := sourceLen + (sourceLen >>> 3) + 64 + 11

/-- Outcome of `otezip_compress_data` for the modelled methods: the final
method (after the transparent STORE fallback) and the encoded bytes, an
error, or a non-STORE/DEFLATE codec branch that the model does not
follow. -/
inductive CompressResult where
  | ok (method : Nat) (out : List Nat)
  | fail
  | otherCodec (method : Nat)
  deriving Repr, DecidableEq

/-- `otezip_compress_data` (otezip.c, lines 754-1030) for STORE and
DEFLATE: STORE copies; DEFLATE runs one `deflate(.., Z_FINISH)` into a
`compressBound`-sized buffer and falls back to STORE whenever the encoded
size is not strictly smaller than the input (`*out_size >= in_size`).
`window0` is the encoder's uninitialised window. -/
def otezip_compress_data (window0 : Nat → Nat) (inBuf : List Nat) (method : Nat) :
    CompressResult :=
  if method = 0 then .ok 0 (inBuf.map (· % 256))
  else if method = 8 then
    let p := deflateOneShot (-1) window0 inBuf (compressBound inBuf.length)
    if p.1 ≠ .streamEnd then .fail
    else if p.2.length ≥ inBuf.length then .ok 0 (inBuf.map (· % 256))
    else .ok 8 p.2
  else .otherCodec method

/-- `otezip_write_local_header` (otezip.c, lines 1396-1445): the 30-byte
local file header plus the (65535-truncated) name. `hft`/`hfd` are the
DOS time/date the function itself fetches via `otezip_get_dostime`. -/
def otezip_write_local_header (name : List Nat) (method comp uncomp crc hft hfd : Nat) :
    List Nat :=
  otezip_wr32 0x04034b50 ++ otezip_wr16 20 ++ otezip_wr16 0 ++ otezip_wr16 method ++
    otezip_wr16 hft ++ otezip_wr16 hfd ++ otezip_wr32 crc ++ otezip_wr32 comp ++
    otezip_wr32 uncomp ++ otezip_wr16 (min name.length 65535) ++ otezip_wr16 0 ++
    (name.take 65535).map (· % 256)

/-- Result of `zip_file_add`: the in-memory entry it pushes and the bytes
(local header + payload) it appends to the backing stream. -/
structure ZipAddOut where
  entry : OtezipEntry
  written : List Nat
  deriving Repr, DecidableEq

/-- `zip_file_add` (otezip.c, lines 1033-1137) for a source buffer `data`
with name `name`, appending at stream position `startPos`. `ftime`/`fdate`
and `hft`/`hfd` are the two separate `otezip_get_dostime` results (one
stored in the entry, one written into the local header). `none` is the
`-1` failure return; allocation failures do not occur in the model. -/
def zip_file_add_model (defaultMethod : Nat) (window0 : Nat → Nat)
    (name data : List Nat) (ftime fdate hft hfd startPos : Nat) : Option ZipAddOut :=
  if name.length > 65535 then none
  else
    let method0 := if 0 < defaultMethod then defaultMethod else 0
    if data.length > MZIP_MAX_PAYLOAD ∨ data.length > 4294967295 then none
    else
      let crc := mzip_crc32 0 data
      if startPos > 4294967295 then none
      else
        match otezip_compress_data window0 data method0 with
        | .fail => none
        | .otherCodec _ => none
        | .ok m comp =>
          if comp.length > MZIP_MAX_PAYLOAD then none
          else
            some
              { entry :=
                  { local_hdr_ofs := startPos
                    comp_size := comp.length
                    uncomp_size := data.length
                    method := m
                    crc32 := crc
                    file_time := ftime
                    file_date := fdate
                    external_attr := 0x81A40000 }
                written := otezip_write_local_header name m comp.length data.length crc hft hfd
                  ++ comp }

/-! ## Concrete test vectors -/

/-- A minimal archive fragment for the expansion-guard counterexample: a
lone 30-byte local file header (signature, all other fields zero, empty
name, no extra field) and no payload. -/
def zeroCompFile : List Nat := otezip_wr32 0x04034b50 ++ List.replicate 26 0

/-- An entry with compressed size 0 whose declared uncompressed size
(2 MiB) exceeds `0 × 1000 + 1 MiB`, method DEFLATE. -/
def zeroCompEntry : OtezipEntry :=
  { local_hdr_ofs := 0, comp_size := 0, uncomp_size := 2097152, method := 8,
    crc32 := 0, file_time := 0, file_date := 0, external_attr := 0 }

/-- An archive fragment with a local file header and a 1-byte payload,
for the expansion-guard witness. -/
def bombFile : List Nat := otezip_wr32 0x04034b50 ++ List.replicate 26 0 ++ [0]

/-- An entry with compressed size 1 and declared uncompressed size
2000000 > 1 × 1000 + 1 MiB. -/
def bombEntry : OtezipEntry :=
  { local_hdr_ofs := 0, comp_size := 1, uncomp_size := 2000000, method := 8,
    crc32 := 0, file_time := 0, file_date := 0, external_attr := 0 }

/-- A 22-byte file that is exactly one EOCD record declaring 0 entries,
central-directory size 4 and central-directory offset 0. The four bytes
at offset 0 are the EOCD signature, not the CDH signature. -/
def eocdZeroEntriesFile : List Nat :=
  [0x50, 0x4b, 0x05, 0x06, 0, 0, 0, 0, 0, 0, 0, 0, 4, 0, 0, 0, 0, 0, 0, 0, 0, 0]

/-! ## Helper lemmas -/

/-- The scan loop only depends on the candidate test pointwise. -/
theorem eocdScan_congr (f g : Nat → Option (Nat × Nat × Nat × Nat))
    (hfg : ∀ i, f i = g i) : ∀ n, eocdScan f n = eocdScan g n := by
  intro n
  induction n with
  | zero => simp only [eocdScan, hfg]
  | succ n ih => simp only [eocdScan, hfg, ih]

/-- For files below 4 GiB the C candidate test (with its
`(uint32_t)file_size` cast) coincides with the amended-claim candidate
test. -/
theorem eocdCandidate_eq_amended (file buf : List Nat) (fileSize searchLen i : Nat)
    (h : fileSize < 4294967296) :
    eocdCandidate file buf fileSize searchLen i =
      eocdCandidateAmended file buf fileSize searchLen i := by
  unfold eocdCandidate eocdCandidateAmended
  rw [Nat.mod_eq_of_lt h]
  split_ifs <;> first
  | rfl
  | omega

/-! ## Claim theorems -/

set_option maxRecDepth 100000

set_option maxHeartbeats 2000000

/-- Claim C1 (code bug, evaluated at the failing input): for the input
`[0x41]` at compression level 6 (the default) or 1, the raw-deflate
encoder finishes with `Z_STREAM_END` after emitting `[0x8B, 0x03, 0x00]`,
and the repository's own raw inflate decodes those bytes to `[0x5E]` with
`Z_STREAM_END` — not the original `[0x41]`. The round-trip
`decode(encode(X))` = `X` required by the claim (and by §4.3.3 of the
spec and the repo's test/unit/test_deflate.c) fails because `deflate`
writes Huffman code values LSB-first without bit-reversal while `inflate`
reads them MSB-first. The windows are instantiated at all-zero contents;
on this input neither codec ever reads a window cell (the encoder skips
the match search for a lookahead below 3 and the decoder performs no
back-reference copy), so the malloc-garbage window contents are
irrelevant to the result. -/
theorem C1_single_byte_roundtrip_fails :
    deflateOneShot 6 (fun _ => 0) [65] 1024 = (ZRet.streamEnd, [139, 3, 0]) ∧
    deflateOneShot 1 (fun _ => 0) [65] 1024 = (ZRet.streamEnd, [139, 3, 0]) ∧
    inflateOneShot (fun _ => 0) [139, 3, 0] 1024 = (ZRet.streamEnd, [94]) ∧
    ([94] : List Nat) ≠ [65] := by
  refine ⟨by decide, by decide, by decide, by decide⟩

/-- Claim C2 (amended): for every archive entry that reaches the
expansion guard (valid local header, in-bounds payload, sizes within
2 GiB) with a NONZERO compressed size, a declared uncompressed size
exceeding `comp_size × 1000 + 1 MiB` makes `otezip_extract_entry` fail
with the expansion-limit rejection when the guard is not disabled. The
method, the payload bytes and the decoder window are universally
quantified: the guard fires before the payload is read, before the
uncompressed buffer would be allocated and before any codec dispatch. -/
theorem C2_expansion_guard_rejects (file : List Nat) (e : OtezipEntry)
    (verifyCrc : Bool) (w0 : Nat → Nat)
    (h1 : e.local_hdr_ofs + 30 ≤ file.length)
    (h2 : otezip_rd32 file e.local_hdr_ofs = 0x04034b50)
    (h3 : lfhDataOfs file e ≤ file.length)
    (h4 : e.comp_size ≤ MZIP_MAX_PAYLOAD)
    (h5 : e.uncomp_size ≤ MZIP_MAX_PAYLOAD)
    (h6 : lfhDataOfs file e + e.comp_size ≤ file.length)
    (h7 : 0 < e.comp_size)
    (h8 : e.comp_size * 1000 + 1048576 < e.uncomp_size) :
    otezip_extract_entry false verifyCrc 1000 1048576 w0 file e = .err .zipbomb := by
  have hA : ¬(e.local_hdr_ofs > file.length) := by omega
  have hB : ¬(file.length < e.local_hdr_ofs + 30) := by omega
  have hD : ¬(lfhDataOfs file e > file.length) := by omega
  have hE : ¬(e.comp_size > MZIP_MAX_PAYLOAD ∨ e.uncomp_size > MZIP_MAX_PAYLOAD) := by
    push_neg
    exact ⟨h4, h5⟩
  have hF : ¬(lfhDataOfs file e + e.comp_size > file.length) := by omega
  simp only [otezip_extract_entry, hA, hB, h2, hD, hE, hF, h7, h8, if_false, if_true,
    ne_eq, not_true_eq_false, Bool.false_eq_true, not_false_eq_true, and_self, if_true]

/-- Witness for C2: a concrete in-bounds entry with compressed size 1 and
declared uncompressed size 2000000 > 1 × 1000 + 1 MiB is rejected by the
guard. -/
theorem C2_expansion_guard_rejects_witness :
    0 < bombEntry.comp_size ∧
    bombEntry.comp_size * 1000 + 1048576 < bombEntry.uncomp_size ∧
    otezip_extract_entry false false 1000 1048576 (fun _ => 0) bombFile bombEntry =
      .err .zipbomb :=
  ⟨by decide, by decide,
    C2_expansion_guard_rejects bombFile bombEntry false (fun _ => 0) (by decide) (by decide)
      (by decide) (by decide) (by decide) (by decide) (by decide) (by decide)⟩

/-- Counterexample to C2 as stated: an entry with compressed size 0 and
declared uncompressed size 2 MiB exceeds `comp_size × 1000 + 1 MiB`, yet
with the guard enabled its extraction is NOT the expansion-limit
rejection — the `e->comp_size > 0` conjunct of the guard (otezip.c line
430) skips the check, the 2 MiB output buffer is allocated, and the
entry fails later in the DEFLATE decode step instead. -/
theorem C2_comp_zero_guard_not_applied :
    zeroCompEntry.comp_size = 0 ∧
    zeroCompEntry.comp_size * 1000 + 1048576 < zeroCompEntry.uncomp_size ∧
    otezip_extract_entry false false 1000 1048576 (fun _ => 0) zeroCompFile zeroCompEntry =
      .err .inflateFailed ∧
    ExtractResult.err .inflateFailed ≠ .err .zipbomb := by
  refine ⟨rfl, by decide, rfl, by decide⟩

/-- Counterexample to C3 as stated: with `Z_FINISH` and the default level,
the DEFLATE encoder produces ZERO output bytes for the empty input (the
whole emission branch of `deflate` is guarded by `avail_in > 0`), not a
non-empty payload containing an end-of-block symbol. The window is
instantiated at all-zero contents; the empty-input path never reads a
window cell, so the malloc-garbage contents are irrelevant. -/
theorem C3_empty_input_empty_output :
    deflateOneShot (-1) (fun _ => 0) [] (compressBound 0) = (ZRet.streamEnd, []) :=
  rfl

/-- Claim C3 (amended): for the empty input the DEFLATE encoder finalised
with `Z_FINISH` produces an EMPTY payload and reports end-of-stream;
adding a length-0 entry to an archive (default method DEFLATE) therefore
takes the transparent STORE fallback (0 encoded bytes is not strictly
smaller than 0 input bytes), records CRC-32 0, and the entry round-trips:
extracting it from the written bytes yields the empty buffer, passing the
strict CRC check. The `otezip_get_dostime` results (the entry's and the
header's, which the extraction never consults) are instantiated at the
arbitrary nonzero values 17441/13175 and 31794/23185; the codec windows
at all-zero contents — the empty-input encode and the STORE extraction
never read a window cell, so the malloc-garbage contents are
irrelevant. -/
theorem C3_empty_entry_roundtrip :
    deflateOneShot (-1) (fun _ => 0) [] (compressBound 0) = (ZRet.streamEnd, []) ∧
    mzip_crc32 0 [] = 0 ∧
    zip_file_add_model 8 (fun _ => 0) [97] [] 17441 13175 31794 23185 0 = some
      { entry := { local_hdr_ofs := 0, comp_size := 0, uncomp_size := 0, method := 0,
                   crc32 := 0, file_time := 17441, file_date := 13175,
                   external_attr := 0x81A40000 }
        written := otezip_write_local_header [97] 0 0 0 0 31794 23185 } ∧
    otezip_extract_entry false true 1000 1048576 (fun _ => 0)
      (otezip_write_local_header [97] 0 0 0 0 31794 23185)
      { local_hdr_ofs := 0, comp_size := 0, uncomp_size := 0, method := 0,
        crc32 := 0, file_time := 17441, file_date := 13175,
        external_attr := 0x81A40000 } = .ok [] 0 := by
  refine ⟨by decide, by decide, by decide, by decide⟩

/-- Counterexample to C4 as stated: on `eocdZeroEntriesFile` the code
accepts the EOCD candidate at offset 0 even though the four bytes at its
`cd_offset` (= 0) are not the central-directory-header signature — the
CDH probe only runs for candidates with `entries > 0 ∧ cd_size ≥ 4`
(otezip.c line 229) — whereas the claim's described algorithm (every
candidate validated by the CDH check) would reject every candidate and
fail as inconsistent. -/
theorem C4_zero_entries_candidate_not_validated :
    otezip_find_eocd eocdZeroEntriesFile = .found 0 0 4 0 ∧
    otezip_rd32 eocdZeroEntriesFile 0 ≠ 0x02014b50 ∧
    findEocdClaim eocdZeroEntriesFile = .incons := by
  refine ⟨rfl, by decide, rfl⟩

/-- Claim C4 (amended): for every file below 4 GiB, `otezip_find_eocd`
behaves exactly as the amended description: scan the last
`min(file_size, 65558)` bytes from high to low; a candidate EOCD is
accepted iff `cd_offset` and `cd_offset + cd_size` lie inside the file
and — only when it declares at least one entry and `cd_size ≥ 4` — the
four bytes at `cd_offset` are the CDH signature; rejected candidates are
skipped and scanning continues; if no candidate passes, the search fails
as inconsistent. -/
theorem C4_find_eocd_matches_amended (file : List Nat)
    (h : file.length < 4294967296) :
    otezip_find_eocd file = findEocdAmended file := by
  unfold otezip_find_eocd findEocdAmended
  by_cases h22 : file.length < 22
  · simp only [h22, if_true]
  · simp only [h22, if_false]
    rw [eocdScan_congr _ _
      (fun i => eocdCandidate_eq_amended file
        (file.drop (file.length - min file.length 65558)) file.length
        (min file.length 65558) i h)]

/-- Witness for C4: the amended equivalence applied to the concrete
22-byte archive. -/
theorem C4_find_eocd_matches_amended_witness :
    eocdZeroEntriesFile.length < 4294967296 ∧
    otezip_find_eocd eocdZeroEntriesFile = findEocdAmended eocdZeroEntriesFile :=
  ⟨by decide, C4_find_eocd_matches_amended eocdZeroEntriesFile (by decide)⟩

end Otezip
